import Mathlib

/-!
# Shiori: server bootstrap and login payload validation

A shallow embedding of

* `internal/cmd/server.go` : `newServerCommand` (flag declarations) and
  `newServerCommandHandler` (configuration, domains, root path validation,
  flag overrides, `Setup`);
* `internal/http/routes/api/auth.go` : `loginRequestPayload` and its `IsValid`.

Go strings are immutable byte sequences, so they are modelled as lists of bytes.
A Go `error` built by `fmt.Errorf` from a constant format without verbs is
modelled by its message, `nil` being `none`.
-/

namespace Shiori

/-! ## Go strings -/

/-- A Go `string`: a finite sequence of bytes. -/
abbrev GoString := List (Fin 256)

/-- The string `"/"`. -/
def slash : GoString := [47]

/-- The string `":"`. -/
def colon : GoString := [58]

/-- Go `strings.HasPrefix(s, pre)`:
`len(s) >= len(pre) && s[:len(pre)] == pre`. -/
def HasPrefix (s pre : GoString) : Bool :=
  decide (s.length ≥ pre.length) && (s.take pre.length == pre)

/-- Go `strings.HasSuffix(s, suf)`:
`len(s) >= len(suf) && s[len(s)-len(suf):] == suf`. -/
def HasSuffix (s suf : GoString) : Bool :=
  decide (s.length ≥ suf.length) && (s.drop (s.length - suf.length) == suf)

/-! ## `internal/http/routes/api/auth.go` -/

/-- The login request body (`auth.go`, lines 28-32). -/
structure loginRequestPayload where
  Username : GoString
  Password : GoString
  RememberMe : Bool
  deriving DecidableEq, Repr

/-- The method `(p *loginRequestPayload) IsValid() error` (`auth.go`, lines 38-46).
The result is the message of the returned error, `none` for `nil`. -/
def loginRequestPayload.IsValid (p : loginRequestPayload) : Option String :=
  if p.Username = [] then
    some "username should not be empty"
  else if p.Password = [] then
    some "password should not be empty"
  else
    none

/-! ## `internal/cmd/server.go` -/

/-- The storage section of the HTTP configuration. The `config` package is not part
of the sources at hand: only `DataDir` is read by `server.go`, and `rest` stands
for whatever other fields the section has. -/
structure StorageConfig (ρ : Type) where
  DataDir : GoString
  rest : ρ
  deriving DecidableEq, Repr

/-- The `cfg.Http` section: the six fields written by `server.go`, the `Storage`
section it reads, and `rest` for every other field. -/
structure HttpConfig (ρ : Type) where
  Port : Int
  Address : GoString
  RootPath : GoString
  AccessLog : Bool
  ServeWebUI : Bool
  SecretKey : GoString
  Storage : StorageConfig ρ
  rest : ρ
  deriving DecidableEq, Repr

/-- The server configuration returned by `config.ParseServerConfiguration`:
`Development`, the `Http` section, and `rest` for every other field. -/
structure Config (ρ : Type) where
  Development : Bool
  Http : HttpConfig ρ
  rest : ρ
  deriving DecidableEq, Repr

/-- The values of the flags declared by `newServerCommand` (lines 22-27), as read
back by the handler (lines 54-59). -/
structure Flags where
  port : Int
  address : GoString
  webroot : GoString
  accessLog : Bool
  serveWebUI : Bool
  secretKey : GoString
  deriving DecidableEq, Repr

/-- The default flag values declared by `newServerCommand` (lines 22-27). -/
def defaultFlags : Flags :=
  { port := 8080, address := [], webroot := slash,
    accessLog := true, serveWebUI := true, secretKey := [] }

/-- The "Validate root path" step of the handler (lines 61-72), three
successive conditional assignments to `rootPath`. -/
def validateRootPath (rootPath : GoString) : GoString :=
  let rootPath := if rootPath = [] then slash else rootPath
  let rootPath := if !HasPrefix rootPath slash then slash ++ rootPath else rootPath
  let rootPath := if !HasSuffix rootPath slash then rootPath ++ slash else rootPath
  rootPath

/-- The "Override configuration from flags" step (lines 74-80): six assignments
to fields of `cfg.Http`, in source order, `rootPath` being the validated one. -/
def overrideFromFlags {ρ : Type} (cfg : Config ρ) (port : Int) (address rootPath : GoString)
    (accessLog serveWebUI : Bool) (secretKey : GoString) : Config ρ :=
  let cfg := { cfg with Http := { cfg.Http with Port := port } }
  let cfg := { cfg with Http := { cfg.Http with Address := address ++ colon } }
  let cfg := { cfg with Http := { cfg.Http with RootPath := rootPath } }
  let cfg := { cfg with Http := { cfg.Http with AccessLog := accessLog } }
  let cfg := { cfg with Http := { cfg.Http with ServeWebUI := serveWebUI } }
  let cfg := { cfg with Http := { cfg.Http with SecretKey := secretKey } }
  cfg

/-- What one run of the handler hands to its collaborators: the arguments of the
two domain constructors (lines 50-51), the `cfg.Http` given to `Setup` (line 82),
and the configuration as it stands when the server is set up. -/
structure ServerLaunch (ρ : Type) where
  authSecretKey : GoString
  archiverDataDir : GoString
  setupHttp : HttpConfig ρ
  finalConfig : Config ρ
  deriving DecidableEq, Repr

/-- The body of the closure returned by `newServerCommandHandler` (lines 33-82), up to
the call of `Setup`. `databaseErr` tells whether `openDatabase` failed, in which case
`logger.Fatal` ends the process and nothing is launched (`none`); `cfg` is the result
of `config.ParseServerConfiguration`; `flags` are the values of the command flags. -/
def newServerCommandHandler {ρ : Type} (databaseErr : Bool) (cfg : Config ρ) (flags : Flags) :
    Option (ServerLaunch ρ) :=
  if databaseErr then none
  else
    -- dependencies.Domains.Auth = domains.NewAccountsDomain(logger, cfg.Http.SecretKey, database)
    let authSecretKey := cfg.Http.SecretKey
    -- dependencies.Domains.Archiver = domains.NewArchiverDomain(logger, cfg.Http.Storage.DataDir)
    let archiverDataDir := cfg.Http.Storage.DataDir
    -- Get flags value
    let port := flags.port
    let address := flags.address
    let rootPath := flags.webroot
    let accessLog := flags.accessLog
    let serveWebUI := flags.serveWebUI
    let secretKey := flags.secretKey
    -- Validate root path
    let rootPath := validateRootPath rootPath
    -- Override configuration from flags
    let cfg := overrideFromFlags cfg port address rootPath accessLog serveWebUI secretKey
    -- server := http.NewHttpServer(logger).Setup(cfg.Http, dependencies)
    some { authSecretKey := authSecretKey, archiverDataDir := archiverDataDir,
           setupHttp := cfg.Http, finalConfig := cfg }

/-! ## Example inputs -/

/-- A parsed configuration whose secret key is `"env"`, listening data left at
the zero values, with no further fields. -/
def envKeyConfig : Config Unit :=
  { Development := false,
    Http := { Port := 0, Address := [], RootPath := [], AccessLog := false,
              ServeWebUI := false, SecretKey := [101, 110, 118],
              Storage := { DataDir := [100, 97, 116, 97], rest := () }, rest := () },
    rest := () }

/-- The default flags with `--secret-key flag`. -/
def flagKeyFlags : Flags := { defaultFlags with secretKey := [102, 108, 97, 103] }

/-! ## Root path validation -/

theorem HasPrefix_slash_iff (s : GoString) :
    HasPrefix s slash = true ↔ s.head? = some 47 := by
  cases s with
  | nil => simp [HasPrefix, slash]
  | cons a t => simp [HasPrefix, slash]

theorem HasSuffix_slash_iff (s : GoString) :
    HasSuffix s slash = true ↔ s.getLast? = some 47 := by
  rcases List.eq_nil_or_concat s with h | ⟨t, a, h⟩
  · subst h; simp [HasSuffix, slash]
  · subst h; simp [HasSuffix, slash]

/-- After the second conditional of the validation the path starts with `/`. -/
theorem ensureLeading_head (s : GoString) :
    (if !HasPrefix s slash then slash ++ s else s).head? = some 47 := by
  by_cases h : HasPrefix s slash = true
  · simpa [h] using (HasPrefix_slash_iff s).1 h
  · rw [Bool.not_eq_true] at h
    simp only [h, Bool.not_false, if_true]
    simp [slash]

/-- The third conditional keeps a leading `/` and establishes the trailing one. -/
theorem ensureTrailing_spec (s : GoString) (hs : s.head? = some 47) :
    (if !HasSuffix s slash then s ++ slash else s).head? = some 47 ∧
    (if !HasSuffix s slash then s ++ slash else s).getLast? = some 47 := by
  by_cases h : HasSuffix s slash = true
  · simp only [h, Bool.not_true, Bool.false_eq_true, if_false]
    exact ⟨hs, (HasSuffix_slash_iff s).1 h⟩
  · cases s with
    | nil => simp at hs
    | cons a t =>
      simp only [List.head?_cons, Option.some.injEq] at hs
      subst hs
      rw [Bool.not_eq_true] at h
      simp only [h, Bool.not_false, if_true]
      refine ⟨by simp [slash], ?_⟩
      rw [slash, List.getLast?_concat]

/-- C2: for every webroot string, the root path after the "Validate root path" step is
non-empty, begins with `/` and ends with `/` (both as `strings.HasPrefix` /
`strings.HasSuffix` see it and as first and last byte), and the empty string
becomes exactly `"/"`. -/
theorem validateRootPath_wellformed (webroot : GoString) :
    validateRootPath webroot ≠ [] ∧
    HasPrefix (validateRootPath webroot) slash = true ∧
    HasSuffix (validateRootPath webroot) slash = true ∧
    (validateRootPath webroot).head? = some 47 ∧
    (validateRootPath webroot).getLast? = some 47 ∧
    validateRootPath [] = slash := by
  have key := ensureTrailing_spec _
    (ensureLeading_head (if webroot = [] then slash else webroot))
  have hd : (validateRootPath webroot).head? = some 47 := key.1
  have lt : (validateRootPath webroot).getLast? = some 47 := key.2
  refine ⟨?_, (HasPrefix_slash_iff _).2 hd, (HasSuffix_slash_iff _).2 lt, hd, lt, by decide⟩
  intro h
  rw [h] at hd
  simp at hd

/-! ## Login payload validation -/

/-- C3: `IsValid` returns no error exactly when both `Username` and `Password` are
non-empty; an empty `Username` gives "username should not be empty" whatever the
password is, and a non-empty `Username` with an empty `Password` gives
"password should not be empty". -/
theorem IsValid_spec (p : loginRequestPayload) :
    (p.IsValid = none ↔ p.Username ≠ [] ∧ p.Password ≠ []) ∧
    (p.Username = [] → p.IsValid = some "username should not be empty") ∧
    (p.Username ≠ [] → p.Password = [] →
      p.IsValid = some "password should not be empty") := by
  refine ⟨?_, ?_, ?_⟩
  · unfold loginRequestPayload.IsValid
    by_cases hu : p.Username = []
    · simp [hu]
    · by_cases hp : p.Password = []
      · simp [hu, hp]
      · simp [hu, hp]
  · intro hu
    simp [loginRequestPayload.IsValid, hu]
  · intro hu hp
    simp [loginRequestPayload.IsValid, hu, hp]

/-! ## Flag overrides -/

/-- C4: the handler reaches `Setup` whenever the database opens, and the configuration
it has then has `Port`, `AccessLog`, `ServeWebUI`, `SecretKey` equal to the flags,
`RootPath` equal to the validated webroot, `Address` equal to the address flag
followed by `":"`, and every other field (`Http.Storage`, hence `DataDir`, the rest
of `Http`, `Development`, the rest of the configuration) as parsed; `Setup` receives
the `Http` section of that configuration. -/
theorem overrideFromFlags_frame {ρ : Type} (cfg : Config ρ) (flags : Flags) :
    ∃ r : ServerLaunch ρ, newServerCommandHandler false cfg flags = some r ∧
      r.finalConfig = overrideFromFlags cfg flags.port flags.address
        (validateRootPath flags.webroot) flags.accessLog flags.serveWebUI flags.secretKey ∧
      r.setupHttp = r.finalConfig.Http ∧
      r.finalConfig.Http.Port = flags.port ∧
      r.finalConfig.Http.AccessLog = flags.accessLog ∧
      r.finalConfig.Http.ServeWebUI = flags.serveWebUI ∧
      r.finalConfig.Http.SecretKey = flags.secretKey ∧
      r.finalConfig.Http.RootPath = validateRootPath flags.webroot ∧
      r.finalConfig.Http.Address = flags.address ++ colon ∧
      r.finalConfig.Http.Storage = cfg.Http.Storage ∧
      r.finalConfig.Http.Storage.DataDir = cfg.Http.Storage.DataDir ∧
      r.finalConfig.Http.rest = cfg.Http.rest ∧
      r.finalConfig.Development = cfg.Development ∧
      r.finalConfig.rest = cfg.rest :=
  ⟨_, rfl, rfl, rfl, rfl, rfl, rfl, rfl, rfl, rfl, rfl, rfl, rfl, rfl, rfl⟩

/-! ## Secret key of the accounts domain -/

/-- The accounts domain is always built with the secret key of the parsed
configuration, the archiver with its data directory, and `Setup` always receives
the secret key of the flag. -/
theorem newServerCommandHandler_keys {ρ : Type} (cfg : Config ρ) (flags : Flags) :
    ∃ r : ServerLaunch ρ, newServerCommandHandler false cfg flags = some r ∧
      r.authSecretKey = cfg.Http.SecretKey ∧
      r.archiverDataDir = cfg.Http.Storage.DataDir ∧
      r.setupHttp.SecretKey = flags.secretKey :=
  ⟨_, rfl, rfl, rfl, rfl⟩

/-- C1 (evaluation at the failing input): with a parsed secret key `"env"` and
`--secret-key flag`, the accounts domain is built with `"env"` while `Setup`
receives `"flag"`, so the accounts domain's key is not the flag's value, and the
configuration is changed after the domains have been built from it. -/
theorem newServerCommandHandler_secretKey_mismatch :
    ∃ r : ServerLaunch Unit,
      newServerCommandHandler false envKeyConfig flagKeyFlags = some r ∧
      r.authSecretKey = [101, 110, 118] ∧
      r.setupHttp.SecretKey = [102, 108, 97, 103] ∧
      flagKeyFlags.secretKey = [102, 108, 97, 103] ∧
      r.authSecretKey ≠ flagKeyFlags.secretKey ∧
      r.authSecretKey ≠ r.setupHttp.SecretKey ∧
      r.finalConfig ≠ envKeyConfig :=
  ⟨_, rfl, rfl, rfl, rfl, by decide, by decide, by decide⟩

end Shiori
